import Mathlib

/-!
Verification of the decile-impact aggregator and income-sweep scenario
builder of the SC H.3492 EITC repository, shallowly embedded over ℚ.

The embedding follows `src/sc_h3492_eitc/dynamic_charts/microsim.py`
(`calculate_decile_impacts`) and `src/sc_h3492_eitc/household.py`
(`calculate_net_income_by_earnings`, `_build_household_situation_with_axes`).
Engine-produced per-household arrays are modelled as a `List Household`
(the arrays after the South-Carolina filter); numpy floats are modelled as
exact rationals; Python's `round` (numpy round-half-to-even) is modelled by
`round_half_even`.
-/

/-- One record of the engine-produced household arrays, after the SC filter:
decile assignment, sampling weight, person count, and the two net incomes. -/
structure Household where
  decile : Int
  weight : ℚ
  people : ℚ
  baseline_income : ℚ
  reform_income : ℚ
deriving Repr, DecidableEq

/-- Source line 65: `income_change_hh = reform_income_hh - baseline_income_hh` (microsim.py line 65). -/
def income_change (h : Household) : ℚ := h.reform_income - h.baseline_income

/-- Source line 88: `capped_baseline_income = np.maximum(baseline_income_hh, 1)` (line 88). -/
def capped_baseline_income (h : Household) : ℚ := max h.baseline_income 1

/-- Source line 91: `pct_change_hh = income_change_hh / capped_baseline_income` (line 91). -/
def pct_change (h : Household) : ℚ := income_change h / capped_baseline_income h

/-- Source line 107: `person_weights = household_weights_hh * household_count_people_hh` (line 107). -/
def person_weight (h : Household) : ℚ := h.weight * h.people

/-- Source line 99: `gain_more_5_hh = pct_change_hh > 0.05` (line 99). -/
def gain_more_5_hh (h : Household) : Bool := decide ((0.05 : ℚ) < pct_change h)

/-- Source line 100: `gain_less_5_hh = (pct_change_hh > 0.001) & (pct_change_hh <= 0.05)` (line 100). -/
def gain_less_5_hh (h : Household) : Bool :=
  decide ((0.001 : ℚ) < pct_change h ∧ pct_change h ≤ (0.05 : ℚ))

/-- Source line 101: `no_change_hh = (pct_change_hh > -0.001) & (pct_change_hh <= 0.001)` (line 101). -/
def no_change_hh (h : Household) : Bool :=
  decide (-(0.001 : ℚ) < pct_change h ∧ pct_change h ≤ (0.001 : ℚ))

/-- Source line 102: `loss_less_5_hh = (pct_change_hh > -0.05) & (pct_change_hh <= -0.001)` (line 102). -/
def loss_less_5_hh (h : Household) : Bool :=
  decide (-(0.05 : ℚ) < pct_change h ∧ pct_change h ≤ -(0.001 : ℚ))

/-- Source line 103: `loss_more_5_hh = pct_change_hh <= -0.05` (line 103). -/
def loss_more_5_hh (h : Household) : Bool := decide (pct_change h ≤ -(0.05 : ℚ))

/-- Round half to even, the rounding used by Python / numpy `round` at the
integer position. -/
def round_half_even (x : ℚ) : Int :=
  if x - x.floor < 1/2 then x.floor
  else if 1/2 < x - x.floor then x.floor + 1
  else if x.floor % 2 = 0 then x.floor else x.floor + 1

/-- Python `round(x, 1)`: round to one decimal place, half to even. -/
def round1 (x : ℚ) : ℚ := (round_half_even (x * 10) : ℚ) / 10

/-- Python `round(x, 0)`: round to the nearest whole number, half to even. -/
def round0 (x : ℚ) : ℚ := (round_half_even x : ℚ)

/-- The five outcome categories, keyed as in the `decile_outcomes` /
`all_outcomes` dictionaries of `calculate_decile_impacts`. -/
inductive Bucket where
  | gain_more_than_5pct
  | gain_less_than_5pct
  | no_change
  | loss_less_than_5pct
  | loss_more_than_5pct
deriving Repr, DecidableEq

/-- The boolean mask of each outcome category (lines 99-103). -/
def Bucket.mask : Bucket → Household → Bool
  | .gain_more_than_5pct => gain_more_5_hh
  | .gain_less_than_5pct => gain_less_5_hh
  | .no_change => no_change_hh
  | .loss_less_than_5pct => loss_less_5_hh
  | .loss_more_than_5pct => loss_more_5_hh

/-- The value reported for a bucket when the population has zero total person
weight (`all_outcomes` else-branch, lines 161-167): 100 for `no_change`, 0 for
the other four categories. -/
def Bucket.zero_population_value : Bucket → ℚ
  | .no_change => 100
  | _ => 0

/-- Source lines 73 and 119: `in_decile_hh = household_income_decile_hh == decile` (lines 73 and 119). -/
def in_decile (d : Int) (h : Household) : Bool := h.decile == d

/-- Source line 74: `decile_weight_hh = household_weights_hh[in_decile_hh].sum()` (line 74). -/
def decile_weight (hs : List Household) (d : Int) : ℚ :=
  ((hs.filter (in_decile d)).map Household.weight).sum

/-- Source line 77: `(income_change_hh[in_decile_hh] * household_weights_hh[in_decile_hh]).sum()`
(line 77). -/
def decile_impact_weighted_sum (hs : List Household) (d : Int) : ℚ :=
  ((hs.filter (in_decile d)).map (fun h => income_change h * h.weight)).sum

/-- One step of the average-impact loop (lines 72-82): the household-weighted
average dollar impact of a decile, rounded to the nearest whole dollar, or 0
when the decile has zero total household weight. -/
def avg_impact (hs : List Household) (d : Int) : ℚ :=
  if 0 < decile_weight hs d then
    round0 (decile_impact_weighted_sum hs d / decile_weight hs d)
  else 0

/-- The list `avg_impact_by_decile`,  built by the loop over deciles 1..10. -/
def avg_impact_by_decile (hs : List Household) : List ℚ :=
  (List.range 10).map (fun i => avg_impact hs ((i : Int) + 1))

/-- Source line 120: `decile_people = person_weights[in_decile].sum()` (line 120). -/
def decile_people (hs : List Household) (d : Int) : ℚ :=
  ((hs.filter (in_decile d)).map person_weight).sum

/-- Source lines 124-136: `person_weights[in_decile & mask_hh].sum()`. -/
def decile_bucket_people (hs : List Household) (d : Int) (b : Bucket) : ℚ :=
  ((hs.filter (fun h => in_decile d h && b.mask h)).map person_weight).sum

/-- One entry of `decile_outcomes` (lines 118-140): the person-weighted share
of a bucket within a decile as a rounded percentage, or 0 when the decile has
zero total person weight. -/
def decile_outcome (hs : List Household) (d : Int) (b : Bucket) : ℚ :=
  if 0 < decile_people hs d then
    round1 (decile_bucket_people hs d b / decile_people hs d * 100)
  else 0

/-- Source line 143: `total_people = person_weights.sum()` (line 143). -/
def total_people (hs : List Household) : ℚ := (hs.map person_weight).sum

/-- Source lines 146-158: `person_weights[mask_hh].sum()`. -/
def bucket_people (hs : List Household) (b : Bucket) : ℚ :=
  ((hs.filter b.mask).map person_weight).sum

/-- One entry of `all_outcomes` (lines 143-167): the person-weighted share of
a bucket in the whole filtered population as a rounded percentage, with the
zero-population fallback of lines 161-167. -/
def all_outcome (hs : List Household) (b : Bucket) : ℚ :=
  if 0 < total_people hs then
    round1 (bucket_people hs b / total_people hs * 100)
  else b.zero_population_value

/-- The sum of the five `decile_outcomes` entries of one decile. -/
def decile_outcome_sum (hs : List Household) (d : Int) : ℚ :=
  decile_outcome hs d .gain_more_than_5pct + decile_outcome hs d .gain_less_than_5pct +
    decile_outcome hs d .no_change + decile_outcome hs d .loss_less_than_5pct +
    decile_outcome hs d .loss_more_than_5pct

/-- The sum of the five `all_outcomes` entries. -/
def all_outcome_sum (hs : List Household) : ℚ :=
  all_outcome hs .gain_more_than_5pct + all_outcome hs .gain_less_than_5pct +
    all_outcome hs .no_change + all_outcome hs .loss_less_than_5pct +
    all_outcome hs .loss_more_than_5pct

/-- The error class named by the spec's error taxonomy for out-of-range decile
codes or negative weights. The source defines no such class and never raises:
the type is here so that the aggregator's error behaviour can be stated. -/
structure ValidationError where
  decile_seen : Int
deriving Repr, DecidableEq

/-- The dictionary returned by `calculate_decile_impacts` (lines 178-182). -/
structure DecileImpacts where
  decile_outcomes : Bucket → List ℚ
  all_outcomes : Bucket → ℚ
  avg_impacts : List ℚ

/-- The function `calculate_decile_impacts` on engine-produced household records (after the
SC filter): the function body contains no raise statement and no warning call,
so it unconditionally returns its result dictionary. -/
def calculate_decile_impacts (hs : List Household) :
    Except ValidationError DecileImpacts :=
  .ok
    { decile_outcomes := fun b => (List.range 10).map (fun i => decile_outcome hs ((i : Int) + 1) b)
      all_outcomes := fun b => all_outcome hs b
      avg_impacts := avg_impact_by_decile hs }

/-- Length of Python's `range(a, b, s)` for a positive step `s`. -/
def pyRangeLength (a b : Int) (s : Nat) : Nat := ((b - a).toNat + s - 1) / s

/-- Python's `range(a, b, s)` for a positive step `s`, as a list. -/
def pyRange (a b : Int) (s : Nat) : List Int :=
  (List.range (pyRangeLength a b s)).map (fun k : Nat => a + (k : Int) * (s : Int))

/-- Source household.py line 62: `employment_income_values = list(range(min_income, max_income + 1, step))`
(household.py line 62). -/
def employment_income_values (min_income max_income : Int) (step : Nat) : List Int :=
  pyRange min_income (max_income + 1) step

/-- Source household.py line 111: `num_points = len(range(min_income, max_income + 1, step))`, the `count`
declared on the axis of the submitted situation (household.py lines 111 and
141-151). -/
def num_points (min_income max_income : Int) (step : Nat) : Nat :=
  pyRangeLength min_income (max_income + 1) step

/-- A household sitting exactly on the `0.05` boundary: baseline 20,
reform 21, so `pct_change = 1/20`. -/
def hh_gain_boundary : Household :=
  { decile := 1, weight := 1, people := 1, baseline_income := 20, reform_income := 21 }

/-- A household sitting exactly on the `0.001` boundary: baseline 1000,
reform 1001, so `pct_change = 1/1000`. -/
def hh_no_change_boundary : Household :=
  { decile := 1, weight := 1, people := 1, baseline_income := 1000, reform_income := 1001 }

/-- The end-to-end large-gain scenario household: baseline net income 20000,
reform net income 21200. -/
def hh_large_gain : Household :=
  { decile := 1, weight := 1, people := 1, baseline_income := 20000, reform_income := 21200 }

/-- Five decile-1 households, one in each outcome bucket, whose person-weight
shares are 20.16%, 20.16%, 20.16%, 20.16% and 19.36%: every share rounds up,
so the rounded shares sum to 100.2. -/
def sample_five : List Household :=
  [{ decile := 1, weight := 2016, people := 1, baseline_income := 100, reform_income := 110 },
   { decile := 1, weight := 2016, people := 1, baseline_income := 100, reform_income := 102 },
   { decile := 1, weight := 2016, people := 1, baseline_income := 100, reform_income := 100 },
   { decile := 1, weight := 2016, people := 1, baseline_income := 100, reform_income := 98 },
   { decile := 1, weight := 1936, people := 1, baseline_income := 100, reform_income := 90 }]

/-- The two-household decile of the spec's average-impact scenario: weights 2
and 3, person counts 1 and 2, income changes 100 and 200. -/
def sample_two : List Household :=
  [{ decile := 1, weight := 2, people := 1, baseline_income := 1000, reform_income := 1100 },
   { decile := 1, weight := 3, people := 2, baseline_income := 1000, reform_income := 1200 }]

/-- A household carrying an out-of-range decile code (11). -/
def hh_out_of_range : Household :=
  { decile := 11, weight := 3, people := 2, baseline_income := 100, reform_income := 200 }

/-- A household carrying a negative sampling weight. -/
def hh_negative_weight : Household :=
  { decile := 2, weight := -1, people := 1, baseline_income := 100, reform_income := 100 }

/-- An input containing both an out-of-range decile code and a negative
weight, the two conditions of the spec's ValidationError taxonomy. -/
def corrupt_input : List Household :=
  sample_two ++ [hh_out_of_range, hh_negative_weight]

/-- A one-household input whose only decile-3 household has sampling weight
zero, making decile 3 a zero-total-weight decile. -/
def zero_weight_input : List Household :=
  [{ decile := 3, weight := 0, people := 2, baseline_income := 100, reform_income := 200 }]

/-- The input transformed by multiplying the sampling weight of every
household of decile `d` by the constant `c`. -/
def scale_decile_weights (hs : List Household) (d : Int) (c : ℚ) : List Household :=
  hs.map (fun h => if h.decile = d then { h with weight := c * h.weight } else h)

/-- The computable `Rat.floor` agrees with the order-theoretic `Int.floor`. -/
theorem ratFloor_eq_intFloor (q : ℚ) : q.floor = ⌊q⌋ := by
  rw [Rat.floor_def, Rat.floor_def']

/-- Evaluation rule: a value whose fractional part is below one half rounds down. -/
theorem round_half_even_eq_low (x : ℚ) (n : Int) (h1 : (n : ℚ) ≤ x) (h2 : x < n + 1/2) :
    round_half_even x = n := by
  have hf : ⌊x⌋ = n := by
    rw [Int.floor_eq_iff]
    constructor
    · exact h1
    · linarith
  rw [round_half_even, ratFloor_eq_intFloor, hf]
  rw [if_pos]
  linarith

/-- Evaluation rule: a value whose fractional part is above one half rounds up. -/
theorem round_half_even_eq_high (x : ℚ) (n : Int) (h1 : (n : ℚ) + 1/2 < x) (h2 : x < n + 1) :
    round_half_even x = n + 1 := by
  have hf : ⌊x⌋ = n := by
    rw [Int.floor_eq_iff]
    constructor
    · linarith
    · linarith
  rw [round_half_even, ratFloor_eq_intFloor, hf]
  rw [if_neg, if_pos]
  · linarith
  · linarith

/-- Every rational value falls in at least one of the five threshold ranges. -/
theorem pct_bucket_cases (p : ℚ) :
    (0.05 : ℚ) < p ∨ ((0.001 : ℚ) < p ∧ p ≤ 0.05) ∨ (-(0.001:ℚ) < p ∧ p ≤ 0.001) ∨
      (-(0.05:ℚ) < p ∧ p ≤ -(0.001:ℚ)) ∨ p ≤ -(0.05:ℚ) := by
  rcases le_or_lt p (-(0.05:ℚ)) with h1 | h1
  · exact Or.inr (Or.inr (Or.inr (Or.inr h1)))
  rcases le_or_lt p (-(0.001:ℚ)) with h2 | h2
  · exact Or.inr (Or.inr (Or.inr (Or.inl ⟨h1, h2⟩)))
  rcases le_or_lt p (0.001:ℚ) with h3 | h3
  · exact Or.inr (Or.inr (Or.inl ⟨h2, h3⟩))
  rcases le_or_lt p (0.05:ℚ) with h4 | h4
  · exact Or.inr (Or.inl ⟨h3, h4⟩)
  · exact Or.inl h4

/-- The five bucket masks distribute one copy of a weight: whichever single
mask is on receives `w`, the others receive `0`. -/
theorem mask_ite_sum (h : Household) (w : ℚ) :
    (if gain_more_5_hh h then w else 0) + (if gain_less_5_hh h then w else 0) +
      (if no_change_hh h then w else 0) + (if loss_less_5_hh h then w else 0) +
      (if loss_more_5_hh h then w else 0) = w := by
  simp only [gain_more_5_hh, gain_less_5_hh, no_change_hh, loss_less_5_hh, loss_more_5_hh,
    decide_eq_true_eq]
  rcases pct_bucket_cases (pct_change h) with hc | ⟨hc1, hc2⟩ | ⟨hc1, hc2⟩ | ⟨hc1, hc2⟩ | hc
  · rw [if_pos hc, if_neg (by rintro ⟨hx1, hx2⟩; linarith),
      if_neg (by rintro ⟨hx1, hx2⟩; linarith), if_neg (by rintro ⟨hx1, hx2⟩; linarith),
      if_neg (by intro hx; linarith)]
    ring
  · rw [if_neg (by intro hx; linarith), if_pos ⟨hc1, hc2⟩,
      if_neg (by rintro ⟨hx1, hx2⟩; linarith), if_neg (by rintro ⟨hx1, hx2⟩; linarith),
      if_neg (by intro hx; linarith)]
    ring
  · rw [if_neg (by intro hx; linarith), if_neg (by rintro ⟨hx1, hx2⟩; linarith),
      if_pos ⟨hc1, hc2⟩, if_neg (by rintro ⟨hx1, hx2⟩; linarith),
      if_neg (by intro hx; linarith)]
    ring
  · rw [if_neg (by intro hx; linarith), if_neg (by rintro ⟨hx1, hx2⟩; linarith),
      if_neg (by rintro ⟨hx1, hx2⟩; linarith), if_pos ⟨hc1, hc2⟩,
      if_neg (by intro hx; linarith)]
    ring
  · rw [if_neg (by intro hx; linarith), if_neg (by rintro ⟨hx1, hx2⟩; linarith),
      if_neg (by rintro ⟨hx1, hx2⟩; linarith), if_neg (by rintro ⟨hx1, hx2⟩; linarith),
      if_pos hc]
    ring

/-- Splitting a filtered person-weight total across the five bucket masks
loses and double-counts nothing. -/
theorem filter_mask_split (g : Household → Bool) (hs : List Household) :
    ((hs.filter (fun h => g h && gain_more_5_hh h)).map person_weight).sum +
      ((hs.filter (fun h => g h && gain_less_5_hh h)).map person_weight).sum +
      ((hs.filter (fun h => g h && no_change_hh h)).map person_weight).sum +
      ((hs.filter (fun h => g h && loss_less_5_hh h)).map person_weight).sum +
      ((hs.filter (fun h => g h && loss_more_5_hh h)).map person_weight).sum
    = ((hs.filter g).map person_weight).sum := by
  induction hs with
  | nil => simp
  | cons x t ih =>
    have key : ∀ (c : Bool) (l : List Household),
        ((if c = true then x :: l else l).map person_weight).sum
          = (if c = true then person_weight x else 0) + (l.map person_weight).sum := by
      intro c l
      cases c <;> simp
    simp only [List.filter_cons]
    cases hg : g x
    · simpa [hg] using ih
    · simp only [hg, Bool.true_and, if_true]
      rw [key, key, key, key, key]
      simp only [List.map_cons, List.sum_cons]
      have hm := mask_ite_sum x (person_weight x)
      linarith [hm, ih]

/-- Within one decile, the five bucket person-weight totals sum to the decile's
person-weight total. -/
theorem decile_bucket_split (hs : List Household) (d : Int) :
    decile_bucket_people hs d .gain_more_than_5pct +
      decile_bucket_people hs d .gain_less_than_5pct +
      decile_bucket_people hs d .no_change +
      decile_bucket_people hs d .loss_less_than_5pct +
      decile_bucket_people hs d .loss_more_than_5pct = decile_people hs d := by
  simpa only [decile_bucket_people, decile_people, Bucket.mask] using
    filter_mask_split (in_decile d) hs

/-- Over the whole population, the five bucket person-weight totals sum to the
total person weight. -/
theorem all_bucket_split (hs : List Household) :
    bucket_people hs .gain_more_than_5pct + bucket_people hs .gain_less_than_5pct +
      bucket_people hs .no_change + bucket_people hs .loss_less_than_5pct +
      bucket_people hs .loss_more_than_5pct = total_people hs := by
  have h := filter_mask_split (fun _ => true) hs
  simpa only [bucket_people, total_people, Bucket.mask, Bool.true_and,
    List.filter_true] using h

/-- Rounding to one decimal place moves a value by at most `1/20`. -/
theorem round_half_even_err (x : ℚ) : |(round_half_even x : ℚ) - x| ≤ 1/2 := by
  have h1 : (⌊x⌋ : ℚ) ≤ x := Int.floor_le x
  have h2 : x < ⌊x⌋ + 1 := Int.lt_floor_add_one x
  rw [round_half_even, ratFloor_eq_intFloor]
  split_ifs with ha hb hc
  · rw [abs_le]
    constructor <;> linarith
  · rw [abs_le]
    push_cast
    constructor <;> linarith
  · rw [abs_le]
    constructor <;> linarith
  · rw [abs_le]
    push_cast
    constructor <;> linarith

/-- Rounding with `round1` moves a value by at most `1/20`. -/
theorem round1_err (x : ℚ) : |round1 x - x| ≤ 1/20 := by
  have h := round_half_even_err (x * 10)
  rw [round1]
  have e : (round_half_even (x * 10) : ℚ) / 10 - x
      = ((round_half_even (x * 10) : ℚ) - x * 10) / 10 := by ring
  rw [e, abs_div, show |(10:ℚ)| = 10 by norm_num]
  linarith

/-- For every household exactly one of the five bucket flags is on. -/
theorem bucket_flags (h : Household) :
    (gain_more_5_hh h = true ∧ gain_less_5_hh h = false ∧ no_change_hh h = false ∧
      loss_less_5_hh h = false ∧ loss_more_5_hh h = false) ∨
    (gain_more_5_hh h = false ∧ gain_less_5_hh h = true ∧ no_change_hh h = false ∧
      loss_less_5_hh h = false ∧ loss_more_5_hh h = false) ∨
    (gain_more_5_hh h = false ∧ gain_less_5_hh h = false ∧ no_change_hh h = true ∧
      loss_less_5_hh h = false ∧ loss_more_5_hh h = false) ∨
    (gain_more_5_hh h = false ∧ gain_less_5_hh h = false ∧ no_change_hh h = false ∧
      loss_less_5_hh h = true ∧ loss_more_5_hh h = false) ∨
    (gain_more_5_hh h = false ∧ gain_less_5_hh h = false ∧ no_change_hh h = false ∧
      loss_less_5_hh h = false ∧ loss_more_5_hh h = true) := by
  simp only [gain_more_5_hh, gain_less_5_hh, no_change_hh, loss_less_5_hh, loss_more_5_hh,
    decide_eq_true_eq, decide_eq_false_iff_not]
  rcases pct_bucket_cases (pct_change h) with hc | ⟨hc1, hc2⟩ | ⟨hc1, hc2⟩ | ⟨hc1, hc2⟩ | hc
  · exact Or.inl ⟨hc, by rintro ⟨hx1, hx2⟩; linarith, by rintro ⟨hx1, hx2⟩; linarith,
      by rintro ⟨hx1, hx2⟩; linarith, by intro hx; linarith⟩
  · exact Or.inr (Or.inl ⟨by intro hx; linarith, ⟨hc1, hc2⟩,
      by rintro ⟨hx1, hx2⟩; linarith, by rintro ⟨hx1, hx2⟩; linarith, by intro hx; linarith⟩)
  · exact Or.inr (Or.inr (Or.inl ⟨by intro hx; linarith, by rintro ⟨hx1, hx2⟩; linarith,
      ⟨hc1, hc2⟩, by rintro ⟨hx1, hx2⟩; linarith, by intro hx; linarith⟩))
  · exact Or.inr (Or.inr (Or.inr (Or.inl ⟨by intro hx; linarith,
      by rintro ⟨hx1, hx2⟩; linarith, by rintro ⟨hx1, hx2⟩; linarith, ⟨hc1, hc2⟩,
      by intro hx; linarith⟩)))
  · exact Or.inr (Or.inr (Or.inr (Or.inr ⟨by intro hx; linarith,
      by rintro ⟨hx1, hx2⟩; linarith, by rintro ⟨hx1, hx2⟩; linarith,
      by rintro ⟨hx1, hx2⟩; linarith, hc⟩)))

/-- C1: bucket assignment is a strict partition. Every household's
`pct_change` lands in exactly one of the five outcome buckets, and the
boundaries fall per the closed/open rule: `pct_change = 0.05` is a small gain
(not a large gain) and `pct_change = 0.001` is no change (not a small gain). -/
theorem C1_bucket_partition :
    (∀ h : Household, ∃! b : Bucket, b.mask h = true)
    ∧ (∀ h : Household, pct_change h = 0.05 →
        gain_less_5_hh h = true ∧ gain_more_5_hh h = false)
    ∧ (∀ h : Household, pct_change h = 0.001 →
        no_change_hh h = true ∧ gain_less_5_hh h = false) := by
  refine ⟨?_, ?_, ?_⟩
  · intro h
    rcases bucket_flags h with hf | hf | hf | hf | hf
    · exact ⟨.gain_more_than_5pct, hf.1, by intro b hb; cases b <;> simp_all [Bucket.mask]⟩
    · exact ⟨.gain_less_than_5pct, hf.2.1, by intro b hb; cases b <;> simp_all [Bucket.mask]⟩
    · exact ⟨.no_change, hf.2.2.1, by intro b hb; cases b <;> simp_all [Bucket.mask]⟩
    · exact ⟨.loss_less_than_5pct, hf.2.2.2.1,
        by intro b hb; cases b <;> simp_all [Bucket.mask]⟩
    · exact ⟨.loss_more_than_5pct, hf.2.2.2.2,
        by intro b hb; cases b <;> simp_all [Bucket.mask]⟩
  · intro h hp
    constructor
    · simp only [gain_less_5_hh, decide_eq_true_eq, hp]
      norm_num
    · simp only [gain_more_5_hh, decide_eq_false_iff_not, hp]
      norm_num
  · intro h hp
    constructor
    · simp only [no_change_hh, decide_eq_true_eq, hp]
      norm_num
    · simp only [gain_less_5_hh, decide_eq_false_iff_not, hp]
      norm_num

/-- Five values summing to 100 still sum to within 0.25 of 100 after each is
rounded to one decimal place. -/
theorem five_round1_sum (y1 y2 y3 y4 y5 : ℚ) (hy : y1 + y2 + y3 + y4 + y5 = 100) :
    |round1 y1 + round1 y2 + round1 y3 + round1 y4 + round1 y5 - 100| ≤ 0.25 := by
  have e1 := round1_err y1
  have e2 := round1_err y2
  have e3 := round1_err y3
  have e4 := round1_err y4
  have e5 := round1_err y5
  rw [abs_le] at e1 e2 e3 e4 e5 ⊢
  constructor
  · have := e1.1
    linarith [e1.1, e2.1, e3.1, e4.1, e5.1]
  · linarith [e1.2, e2.2, e3.2, e4.2, e5.2]

/-- C2 (amended): for every run and every decile with positive total person
weight, and likewise for the overall population, the five rounded
outcome-bucket percentages sum to 100 within 0.25 (five roundings to one
decimal place can each move the sum by up to 0.05; the 0.1 tolerance of the
original claim is refuted by `C2_counterexample`). -/
theorem C2_outcome_sum_tolerance (hs : List Household) (d : Int) :
    (0 < decile_people hs d → |decile_outcome_sum hs d - 100| ≤ 0.25)
    ∧ (0 < total_people hs → |all_outcome_sum hs - 100| ≤ 0.25) := by
  constructor
  · intro hd
    have hne : decile_people hs d ≠ 0 := ne_of_gt hd
    have hy : decile_bucket_people hs d .gain_more_than_5pct / decile_people hs d * 100 +
        decile_bucket_people hs d .gain_less_than_5pct / decile_people hs d * 100 +
        decile_bucket_people hs d .no_change / decile_people hs d * 100 +
        decile_bucket_people hs d .loss_less_than_5pct / decile_people hs d * 100 +
        decile_bucket_people hs d .loss_more_than_5pct / decile_people hs d * 100 = 100 := by
      have hsplit := decile_bucket_split hs d
      field_simp
      linarith [hsplit]
    have hbound := five_round1_sum _ _ _ _ _ hy
    simpa only [decile_outcome_sum, decile_outcome, if_pos hd] using hbound
  · intro ht
    have hne : total_people hs ≠ 0 := ne_of_gt ht
    have hy : bucket_people hs .gain_more_than_5pct / total_people hs * 100 +
        bucket_people hs .gain_less_than_5pct / total_people hs * 100 +
        bucket_people hs .no_change / total_people hs * 100 +
        bucket_people hs .loss_less_than_5pct / total_people hs * 100 +
        bucket_people hs .loss_more_than_5pct / total_people hs * 100 = 100 := by
      have hsplit := all_bucket_split hs
      field_simp
      linarith [hsplit]
    have hbound := five_round1_sum _ _ _ _ _ hy
    simpa only [all_outcome_sum, all_outcome, if_pos ht] using hbound

/-- Witness for C2 (amended) at the five-household sample: its decile-1
outcome percentages sum to within 0.25 of 100. -/
theorem C2_outcome_sum_tolerance_witness :
    |decile_outcome_sum sample_five 1 - 100| ≤ 0.25 :=
  (C2_outcome_sum_tolerance sample_five 1).1 (by
    norm_num [decile_people, sample_five, List.filter_cons, List.filter_nil, in_decile,
      person_weight])

/-- Counterexample to C2 as stated: on `sample_five` the five rounded decile-1
percentages are 20.2, 20.2, 20.2, 20.2 and 19.4, summing to 100.2, which is
not within 0.1 of 100. -/
theorem C2_counterexample :
    decile_outcome_sum sample_five 1 = 100.2 ∧
      ¬(|decile_outcome_sum sample_five 1 - 100| ≤ 0.1) := by
  have h : decile_outcome_sum sample_five 1 = 100.2 := by
    norm_num [decile_outcome_sum, decile_outcome, decile_people, decile_bucket_people,
      sample_five, List.filter_cons, List.filter_nil, in_decile, Bucket.mask,
      gain_more_5_hh, gain_less_5_hh, no_change_hh, loss_less_5_hh, loss_more_5_hh,
      pct_change, income_change, capped_baseline_income, person_weight, max_def,
      round1, round_half_even, ratFloor_eq_intFloor]
  have e : |decile_outcome_sum sample_five 1 - 100| = 0.2 := by
    rw [h, show (100.2 : ℚ) - 100 = 0.2 by norm_num, abs_of_pos (by norm_num)]
  refine ⟨h, ?_⟩
  rw [e]
  norm_num

/-- C3: `pct_change` is the income change divided by the baseline income
clamped below at 1 (only the denominator is clamped, the numerator uses the
raw incomes); a household with baseline 20000 and reform 21200 has
`pct_change = 0.06` and is classified as a large gain. -/
theorem C3_pct_change_clamped_denominator :
    (∀ h : Household,
      pct_change h = (h.reform_income - h.baseline_income) / max h.baseline_income 1)
    ∧ pct_change hh_large_gain = 0.06
    ∧ gain_more_5_hh hh_large_gain = true
    ∧ gain_less_5_hh hh_large_gain = false := by
  refine ⟨fun h => rfl, ?_, ?_, ?_⟩
  · norm_num [pct_change, income_change, capped_baseline_income, hh_large_gain, max_def]
  · simp only [gain_more_5_hh, decide_eq_true_eq]
    norm_num [pct_change, income_change, capped_baseline_income, hh_large_gain, max_def]
  · simp only [gain_less_5_hh, decide_eq_false_iff_not]
    norm_num [pct_change, income_change, capped_baseline_income, hh_large_gain, max_def]

/-- C4: when a decile has positive total household weight, its reported
average dollar impact is the household-weighted mean of the income changes,
rounded to the nearest whole dollar only at the end; on a decile with weights
2 and 3 and income changes 100 and 200 the raw mean and the reported value
are both 160. -/
theorem C4_avg_impact_weighted_mean :
    (∀ (hs : List Household) (d : Int), 0 < decile_weight hs d →
      avg_impact hs d =
        round0 (((hs.filter (in_decile d)).map (fun h => income_change h * h.weight)).sum /
          ((hs.filter (in_decile d)).map Household.weight).sum))
    ∧ decile_impact_weighted_sum sample_two 1 / decile_weight sample_two 1 = 160
    ∧ avg_impact sample_two 1 = 160 := by
  have hw : decile_weight sample_two 1 = 5 := by
    norm_num [decile_weight, sample_two, List.filter_cons, List.filter_nil, in_decile]
  have hi : decile_impact_weighted_sum sample_two 1 = 800 := by
    norm_num [decile_impact_weighted_sum, sample_two, List.filter_cons, List.filter_nil,
      in_decile, income_change]
  refine ⟨?_, ?_, ?_⟩
  · intro hs d hpos
    rw [avg_impact, if_pos hpos]
    rfl
  · rw [hw, hi]
    norm_num
  · rw [avg_impact, if_pos (by rw [hw]; norm_num), hw, hi,
      show (800 : ℚ) / 5 = 160 by norm_num, round0,
      round_half_even_eq_low 160 160 (by norm_num) (by norm_num)]
    norm_num

/-- Witness for C4 at the two-household sample decile. -/
theorem C4_avg_impact_weighted_mean_witness :
    avg_impact sample_two 1 =
      round0 (((sample_two.filter (in_decile 1)).map (fun h => income_change h * h.weight)).sum /
        ((sample_two.filter (in_decile 1)).map Household.weight).sum) :=
  C4_avg_impact_weighted_mean.1 sample_two 1 (by
    norm_num [decile_weight, sample_two, List.filter_cons, List.filter_nil, in_decile])

/-- Witness for C1 at the two boundary households: `pct_change` exactly 0.05
is classified as a small gain, and exactly 0.001 as no change. -/
theorem C1_bucket_partition_witness :
    (gain_less_5_hh hh_gain_boundary = true ∧ gain_more_5_hh hh_gain_boundary = false)
    ∧ (no_change_hh hh_no_change_boundary = true ∧
        gain_less_5_hh hh_no_change_boundary = false) := by
  constructor
  · exact C1_bucket_partition.2.1 hh_gain_boundary (by
      norm_num [pct_change, income_change, capped_baseline_income, hh_gain_boundary, max_def])
  · exact C1_bucket_partition.2.2 hh_no_change_boundary (by
      norm_num [pct_change, income_change, capped_baseline_income, hh_no_change_boundary,
        max_def])

/-- If a list of valid households (nonnegative weights, at least one person
each) has zero total person weight, its total household weight is zero too. -/
theorem weight_sum_zero (l : List Household)
    (hv : ∀ h ∈ l, 0 ≤ h.weight ∧ 1 ≤ h.people)
    (hz : (l.map person_weight).sum = 0) : (l.map Household.weight).sum = 0 := by
  induction l with
  | nil => simp
  | cons x t ih =>
    simp only [List.map_cons, List.sum_cons] at hz ⊢
    have hx := hv x (List.mem_cons_self x t)
    have ht : ∀ h ∈ t, 0 ≤ h.weight ∧ 1 ≤ h.people :=
      fun h hm => hv h (List.mem_cons_of_mem x hm)
    have hxw : 0 ≤ person_weight x :=
      mul_nonneg hx.1 (le_trans zero_le_one hx.2)
    have htw : 0 ≤ (t.map person_weight).sum := by
      apply List.sum_nonneg
      intro y hy
      obtain ⟨h, hm, rfl⟩ := List.mem_map.mp hy
      have := ht h hm
      exact mul_nonneg this.1 (le_trans zero_le_one this.2)
    have hxz : person_weight x = 0 := le_antisymm (by linarith) hxw
    have hwx : x.weight = 0 := by
      have hp : (0 : ℚ) < x.people := lt_of_lt_of_le zero_lt_one hx.2
      rcases mul_eq_zero.mp hxz with hcase | hcase
      · exact hcase
      · exact absurd hcase (ne_of_gt hp)
    rw [hwx, ih ht (by linarith)]
    ring

/-- C6: a decile whose total person weight is zero reports all five of its
outcome-bucket percentages as exactly 0 and its average dollar impact as 0,
given inputs satisfying the data model (nonnegative weights, person count at
least 1). -/
theorem C6_zero_weight_decile (hs : List Household) (d : Int)
    (hvalid : ∀ h ∈ hs, 0 ≤ h.weight ∧ 1 ≤ h.people)
    (hzero : decile_people hs d = 0) :
    (∀ b, decile_outcome hs d b = 0) ∧ avg_impact hs d = 0 := by
  have hnot : ¬(0 < decile_people hs d) := by
    rw [hzero]
    exact lt_irrefl 0
  constructor
  · intro b
    rw [decile_outcome, if_neg hnot]
  · have hw : decile_weight hs d = 0 := by
      apply weight_sum_zero
      · intro h hm
        exact hvalid h (List.mem_of_mem_filter hm)
      · exact hzero
    rw [avg_impact, if_neg (by rw [hw]; exact lt_irrefl 0)]

/-- Witness for C6 at a one-household decile-3 input of weight zero. -/
theorem C6_zero_weight_decile_witness :
    decile_outcome zero_weight_input 3 Bucket.no_change = 0 ∧
      avg_impact zero_weight_input 3 = 0 := by
  have h := C6_zero_weight_decile zero_weight_input 3
    (by
      intro h hm
      simp only [zero_weight_input, List.mem_singleton] at hm
      subst hm
      norm_num)
    (by
      norm_num [decile_people, zero_weight_input, List.filter_cons, List.filter_nil,
        in_decile, person_weight])
  exact ⟨h.1 Bucket.no_change, h.2⟩

/-- C7: when the whole filtered population has zero total person weight, the
overall outcome output reports 100% no change and 0 for the other four
buckets, instead of raising an arithmetic error. -/
theorem C7_zero_population_fallback (hs : List Household)
    (hzero : total_people hs = 0) :
    all_outcome hs Bucket.no_change = 100
    ∧ (∀ b, b ≠ Bucket.no_change → all_outcome hs b = 0) := by
  have hnot : ¬(0 < total_people hs) := by
    rw [hzero]
    exact lt_irrefl 0
  constructor
  · rw [all_outcome, if_neg hnot]
    rfl
  · intro b hb
    rw [all_outcome, if_neg hnot]
    cases b
    · rfl
    · rfl
    · exact absurd rfl hb
    · rfl
    · rfl

/-- Witness for C7 at the zero-weight one-household input. -/
theorem C7_zero_population_fallback_witness :
    all_outcome zero_weight_input Bucket.no_change = 100 ∧
      all_outcome zero_weight_input Bucket.gain_more_than_5pct = 0 := by
  have h := C7_zero_population_fallback zero_weight_input
    (by norm_num [total_people, zero_weight_input, person_weight])
  exact ⟨h.1, h.2 Bucket.gain_more_than_5pct (by intro hx; cases hx)⟩

/-- Appending a household rejected by a boolean predicate leaves the filtered
list unchanged. -/
theorem filter_append_single (p : Household → Bool) (hs : List Household)
    (h0 : Household) (hp : p h0 = false) :
    (hs ++ [h0]).filter p = hs.filter p := by
  simp [List.filter_append, List.filter_cons, hp]

/-- A household whose decile code is outside 1..10 is not in any in-range
decile. -/
theorem out_of_range_not_in_decile (h0 : Household) (d : Int)
    (hd0 : h0.decile < 1 ∨ 10 < h0.decile) (hd1 : 1 ≤ d) (hd2 : d ≤ 10) :
    in_decile d h0 = false := by
  simp only [in_decile, beq_eq_false_iff_ne, ne_eq]
  omega

/-- Every per-decile statistic ignores an appended household that is outside
the decile. -/
theorem decile_stats_append_out (hs : List Household) (h0 : Household) (d : Int)
    (hne : in_decile d h0 = false) :
    decile_weight (hs ++ [h0]) d = decile_weight hs d ∧
    decile_impact_weighted_sum (hs ++ [h0]) d = decile_impact_weighted_sum hs d ∧
    decile_people (hs ++ [h0]) d = decile_people hs d ∧
    ∀ b : Bucket, decile_bucket_people (hs ++ [h0]) d b = decile_bucket_people hs d b := by
  refine ⟨?_, ?_, ?_, ?_⟩
  · rw [decile_weight, decile_weight, filter_append_single _ _ _ hne]
  · rw [decile_impact_weighted_sum, decile_impact_weighted_sum,
      filter_append_single _ _ _ hne]
  · rw [decile_people, decile_people, filter_append_single _ _ _ hne]
  · intro b
    rw [decile_bucket_people, decile_bucket_people,
      filter_append_single _ _ _ (by rw [hne]; rfl)]

/-- Both per-decile outputs ignore an appended household outside the decile. -/
theorem decile_outputs_append_out (hs : List Household) (h0 : Household) (d : Int)
    (hne : in_decile d h0 = false) :
    (∀ b, decile_outcome (hs ++ [h0]) d b = decile_outcome hs d b)
    ∧ avg_impact (hs ++ [h0]) d = avg_impact hs d := by
  obtain ⟨hw, hi, hp, hb⟩ := decile_stats_append_out hs h0 d hne
  constructor
  · intro b
    rw [decile_outcome, decile_outcome, hp, hb]
  · rw [avg_impact, avg_impact, hw, hi]

/-- C5 (amended): the aggregation never fails on out-of-range decile codes
(the function body contains no raise and no warning): it returns a normal
result and silently excludes out-of-range households from every decile-keyed
output. The original claim that a ValidationError is raised is refuted by
`C5_counterexample`. -/
theorem C5_no_validation_error (hs : List Household) (h0 : Household)
    (hd0 : h0.decile < 1 ∨ 10 < h0.decile) :
    (∃ r, calculate_decile_impacts (hs ++ [h0]) = Except.ok r)
    ∧ (∀ d, 1 ≤ d → d ≤ 10 →
        (∀ b, decile_outcome (hs ++ [h0]) d b = decile_outcome hs d b)
        ∧ avg_impact (hs ++ [h0]) d = avg_impact hs d) := by
  refine ⟨⟨_, rfl⟩, ?_⟩
  intro d hd1 hd2
  exact decile_outputs_append_out hs h0 d (out_of_range_not_in_decile h0 d hd0 hd1 hd2)

/-- Counterexample to C5 as stated: `corrupt_input` contains a household with
decile code 11 and a household with negative weight, yet
`calculate_decile_impacts` returns a normal result instead of failing with a
ValidationError. -/
theorem C5_counterexample :
    (hh_out_of_range.decile < 1 ∨ 10 < hh_out_of_range.decile)
    ∧ hh_out_of_range ∈ corrupt_input
    ∧ hh_negative_weight.weight < 0
    ∧ hh_negative_weight ∈ corrupt_input
    ∧ ∃ r, calculate_decile_impacts corrupt_input = Except.ok r := by
  refine ⟨?_, ?_, ?_, ?_, ⟨_, rfl⟩⟩
  · right
    norm_num [hh_out_of_range]
  · exact List.mem_append_right _ (List.mem_cons_self _ _)
  · norm_num [hh_negative_weight]
  · exact List.mem_append_right _ (List.mem_cons_of_mem _ (List.mem_cons_self _ _))

/-- Witness for C5 (amended) at the two-household sample plus a decile-11
household. -/
theorem C5_no_validation_error_witness :
    (∃ r, calculate_decile_impacts (sample_two ++ [hh_out_of_range]) = Except.ok r)
    ∧ avg_impact (sample_two ++ [hh_out_of_range]) 1 = avg_impact sample_two 1 := by
  have h := C5_no_validation_error sample_two hh_out_of_range
    (by right; norm_num [hh_out_of_range])
  exact ⟨h.1, (h.2 1 (by norm_num) (by norm_num)).2⟩

/-- C10: a household with an out-of-range decile code is silently omitted
from every per-decile output (all bucket shares and average impacts of
deciles 1..10) while its person weight still enters the overall outcome
computation's numerators (of whichever bucket its mask selects) and its
denominator; the function returns normally. -/
theorem C10_out_of_range_included_in_overall (hs : List Household) (h0 : Household)
    (hd0 : h0.decile < 1 ∨ 10 < h0.decile) :
    (∀ d, 1 ≤ d → d ≤ 10 →
      (∀ b, decile_outcome (hs ++ [h0]) d b = decile_outcome hs d b)
      ∧ avg_impact (hs ++ [h0]) d = avg_impact hs d)
    ∧ total_people (hs ++ [h0]) = total_people hs + person_weight h0
    ∧ (∀ b : Bucket, bucket_people (hs ++ [h0]) b
        = bucket_people hs b + (if b.mask h0 = true then person_weight h0 else 0))
    ∧ ∃ r, calculate_decile_impacts (hs ++ [h0]) = Except.ok r := by
  refine ⟨?_, ?_, ?_, ⟨_, rfl⟩⟩
  · intro d hd1 hd2
    exact decile_outputs_append_out hs h0 d (out_of_range_not_in_decile h0 d hd0 hd1 hd2)
  · simp [total_people]
  · intro b
    rw [bucket_people, bucket_people, List.filter_append]
    cases hm : b.mask h0
    · simp [List.filter_cons, hm]
    · simp [List.filter_cons, hm]

/-- Witness for C10 at the two-household sample plus a decile-11 household. -/
theorem C10_out_of_range_included_in_overall_witness :
    total_people (sample_two ++ [hh_out_of_range])
      = total_people sample_two + person_weight hh_out_of_range
    ∧ decile_outcome (sample_two ++ [hh_out_of_range]) 1 Bucket.no_change
      = decile_outcome sample_two 1 Bucket.no_change := by
  have h := C10_out_of_range_included_in_overall sample_two hh_out_of_range
    (by right; norm_num [hh_out_of_range])
  exact ⟨h.2.1, (h.1 1 (by norm_num) (by norm_num)).1 Bucket.no_change⟩

/-- Scaling every weight of one decile scales that decile's total household
weight and weighted impact sum by the same constant. -/
theorem scale_decile_sums (hs : List Household) (d : Int) (c : ℚ) :
    decile_weight (scale_decile_weights hs d c) d = c * decile_weight hs d
    ∧ decile_impact_weighted_sum (scale_decile_weights hs d c) d
      = c * decile_impact_weighted_sum hs d := by
  induction hs with
  | nil =>
    constructor <;>
      simp [scale_decile_weights, decile_weight, decile_impact_weighted_sum]
  | cons x t ih =>
    obtain ⟨ih1, ih2⟩ := ih
    by_cases hx : x.decile = d
    · constructor
      · simp only [scale_decile_weights, List.map_cons, decile_weight,
          List.filter_cons, in_decile, hx] at ih1 ⊢
        simp only [beq_self_eq_true, if_true, List.map_cons, List.sum_cons] at ih1 ⊢
        rw [ih1]
        ring
      · simp only [scale_decile_weights, List.map_cons, decile_impact_weighted_sum,
          List.filter_cons, in_decile, hx] at ih2 ⊢
        simp only [beq_self_eq_true, if_true, List.map_cons, List.sum_cons,
          income_change] at ih2 ⊢
        rw [ih2]
        ring
    · have hbeq : (x.decile == d) = false := by
        simp only [beq_eq_false_iff_ne, ne_eq]
        exact hx
      constructor
      · simp only [scale_decile_weights, List.map_cons, decile_weight,
          List.filter_cons, in_decile, hx, if_false, hbeq] at ih1 ⊢
        exact ih1
      · simp only [scale_decile_weights, List.map_cons, decile_impact_weighted_sum,
          List.filter_cons, in_decile, hx, if_false, hbeq] at ih2 ⊢
        exact ih2

/-- C9: the per-decile average dollar impact is invariant under multiplying
every sampling weight of the decile by a positive constant. -/
theorem C9_avg_impact_scale_invariant (hs : List Household) (d : Int) (c : ℚ)
    (hc : 0 < c) :
    avg_impact (scale_decile_weights hs d c) d = avg_impact hs d := by
  obtain ⟨hw, hi⟩ := scale_decile_sums hs d c
  rw [avg_impact, avg_impact, hw, hi]
  by_cases h0 : 0 < decile_weight hs d
  · rw [if_pos (mul_pos hc h0), if_pos h0,
      mul_div_mul_left _ _ (ne_of_gt hc)]
  · rw [if_neg h0, if_neg (by
      intro hcw
      have hWle : decile_weight hs d ≤ 0 := not_lt.mp h0
      nlinarith)]

/-- Witness for C9: doubling the weights of decile 1 in the two-household
sample leaves its average impact unchanged. -/
theorem C9_avg_impact_scale_invariant_witness :
    avg_impact (scale_decile_weights sample_two 1 2) 1 = avg_impact sample_two 1 :=
  C9_avg_impact_scale_invariant sample_two 1 2 (by norm_num)

/-- C8: for a positive step, the employment-income values are exactly the
arithmetic sequence `min, min + step, min + 2*step, ...`, all lying between
`min` and `max`; their count equals the `count` declared on the axis
submitted to the engine; and when the step divides `max - min` both endpoints
are included. -/
theorem C8_income_sweep (mn mx : Int) (s : Nat) (hstep : 0 < s) :
    employment_income_values mn mx s
      = (List.range (num_points mn mx s)).map (fun k : Nat => mn + (k : Int) * (s : Int))
    ∧ (employment_income_values mn mx s).length = num_points mn mx s
    ∧ (∀ x ∈ employment_income_values mn mx s, mn ≤ x ∧ x ≤ mx)
    ∧ ((s : Int) ∣ (mx - mn) → mn ≤ mx →
        mn ∈ employment_income_values mn mx s ∧ mx ∈ employment_income_values mn mx s) := by
  refine ⟨rfl, ?_, ?_, ?_⟩
  · simp only [employment_income_values, pyRange, num_points, List.length_map,
      List.length_range]
  · intro x hx
    simp only [employment_income_values, pyRange, List.mem_map, List.mem_range] at hx
    obtain ⟨k, hk, rfl⟩ := hx
    have hks : (0 : Int) ≤ (k : Int) * (s : Int) := by positivity
    refine ⟨by linarith, ?_⟩
    by_cases hcase : mn ≤ mx
    · have h1 : (k + 1) * s ≤ (mx + 1 - mn).toNat + s - 1 :=
        le_trans (Nat.mul_le_mul_right s hk) (Nat.div_mul_le_self _ _)
      have h1' : k * s + s ≤ (mx + 1 - mn).toNat + s - 1 := by
        rw [Nat.succ_mul] at h1
        exact h1
      have hgoal : ((k * s : Nat) : Int) ≤ mx - mn := by
        generalize k * s = m at h1'
        omega
      have he : ((k * s : Nat) : Int) = (k : Int) * (s : Int) := by
        push_cast
        ring
      linarith [hgoal, he.symm.le, he.le]
    · exfalso
      have hzero : pyRangeLength mn (mx + 1) s = 0 := by
        rw [pyRangeLength]
        have ht : (mx + 1 - mn).toNat = 0 := by omega
        rw [ht, Nat.zero_add]
        exact Nat.div_eq_of_lt (by omega)
      omega
  · intro hdvd hle
    obtain ⟨q, hq⟩ := hdvd
    have hs' : (0 : Int) < (s : Int) := by exact_mod_cast hstep
    have hq0 : 0 ≤ q := by
      by_contra hneg
      push_neg at hneg
      have hlt : (s : Int) * q < 0 := mul_neg_of_pos_of_neg hs' hneg
      have hge : (0 : Int) ≤ mx - mn := sub_nonneg.mpr hle
      linarith [hq]
    have hkq : ((q.toNat : Int)) = q := Int.toNat_of_nonneg hq0
    have hm : mx - mn = ((s * q.toNat : Nat) : Int) := by
      push_cast
      rw [hkq]
      exact hq
    have hn : pyRangeLength mn (mx + 1) s = q.toNat + 1 := by
      have hD : (mx + 1 - mn).toNat = s * q.toNat + 1 := by
        generalize hg : s * q.toNat = m at hm ⊢
        omega
      rw [pyRangeLength, hD,
        show s * q.toNat + 1 + s - 1 = s * (q.toNat + 1) by ring_nf; omega,
        Nat.mul_div_cancel_left _ hstep]
    simp only [employment_income_values, pyRange, hn, List.mem_map, List.mem_range]
    constructor
    · exact ⟨0, by omega, by simp⟩
    · refine ⟨q.toNat, by omega, ?_⟩
      rw [hkq]
      have hcomm : q * (s : Int) = (s : Int) * q := mul_comm _ _
      linarith [hq]

/-- Witness for C8 at the sweep from 0 to 3000 with step 1000: both endpoints
are among the returned income values. -/
theorem C8_income_sweep_witness :
    ((0 : Int) ∈ employment_income_values 0 3000 1000
      ∧ (3000 : Int) ∈ employment_income_values 0 3000 1000)
    ∧ ((0 : Int) ≤ 3000 ∧ (3000 : Int) ≤ 3000) := by
  have h := C8_income_sweep 0 3000 1000 (by norm_num)
  have hmem := h.2.2.2 (by norm_num) (by norm_num)
  exact ⟨hmem, h.2.2.1 3000 hmem.2⟩
